import Mathlib

/-!
# Error kinds of the ingress annotation parsers

A shallow embedding of `internal/ingress/errors/errors.go`.

* A Go `error` interface value is a `GoError`: either the nil interface, a
  pointer to an object of the standard library (`*errors.errorString`,
  `*fmt.wrapError`, `*fmt.wrapErrors`), one of the five struct types declared
  in `errors.go`, or a value of a type declared elsewhere.
* Pointers are addresses into an explicit `Heap`; every function that
  allocates (`errors.New`, `fmt.Errorf` and their callers) passes the heap
  along and returns the extended heap.
* The package variables `ErrMissingAnnotations` and `ErrInvalidAnnotationName`
  are the two objects allocated at package initialisation (`initHeap`).
* `fmt` is a library (embedded as of Go 1.20, where `Errorf` accepts several
  `%w`): its printer is embedded for the directives `errors.go` uses (literal
  text, `%%`, and a bare lower-case verb), and every other behaviour of the
  library is a field of the parameter `FmtLib`, about which nothing is
  assumed.
* A Go `string` is a Lean `String`.
-/

namespace IngressErrors

/-! ## Values -/

/-- A value of the Go interface type `error`. Pointer-typed values carry the
address of their referent; struct-typed values carry their fields. -/
inductive GoError where
  /-- the nil interface value -/
  | nil
  /-- a pointer `*errors.errorString`, as returned by `errors.New` -/
  | errorString (p : Nat)
  /-- a pointer `*fmt.wrapError`, as returned by `fmt.Errorf` with one `%w` -/
  | wrapError (p : Nat)
  /-- a pointer `*fmt.wrapErrors`, as returned by `fmt.Errorf` with several `%w` -/
  | wrapErrors (p : Nat)
  /-- the struct `InvalidConfigurationError` with its field `Name` -/
  | InvalidConfigurationError (Name : String)
  /-- the struct `InvalidContentError` with its field `Name` -/
  | InvalidContentError (Name : String)
  /-- the struct `LocationDeniedError` with its field `Reason` -/
  | LocationDeniedError (Reason : GoError)
  /-- the struct `ValidationError` with its field `Reason` -/
  | ValidationError (Reason : GoError)
  /-- the struct `RiskyAnnotationError` with its field `Reason` -/
  | RiskyAnnotationError (Reason : GoError)
  /-- a value of an error type declared outside this package: the identity of
  its dynamic type and the outcome of its `Error` method (`none`: it panics) -/
  | foreign (typ : Nat) (msg : Option String)
  deriving DecidableEq, Repr

/-- An object on the heap: the referent of a pointer-typed error. -/
inductive HeapObj where
  /-- the struct `errors.errorString` with its field `s` -/
  | errorString (s : String)
  /-- the struct `fmt.wrapError` with its fields `msg` and `err` -/
  | wrapError (msg : String) (err : GoError)
  /-- the struct `fmt.wrapErrors` with its fields `msg` and `errs` -/
  | wrapErrors (msg : String) (errs : List GoError)
  deriving DecidableEq, Repr

/-- The heap: the objects allocated so far, an address being a position. -/
abbrev Heap := List HeapObj

/-- Allocation of a fresh object: it is placed at the first unused address. -/
def alloc (h : Heap) (o : HeapObj) : Nat × Heap := (h.length, h ++ [o])

/-- A value of the Go type `interface{}` handed to `fmt` as an operand. -/
inductive GoValue where
  /-- the nil interface value -/
  | nil
  /-- a value of type `string` -/
  | str (s : String)
  /-- a value whose dynamic type implements `error`; holding the nil error it
  is read as the nil interface -/
  | err (e : GoError)
  /-- a value of any other dynamic type -/
  | other (id : Nat)
  deriving DecidableEq, Repr

/-- The conversion of an `error` to `interface{}`: a nil error is the nil
interface. -/
def GoValue.ofError : GoError → GoValue
  | .nil => .nil
  | e => .err e

/-- The comma-ok type assertion `v.(error)`: the zero value (nil) when the
operand does not hold an error. -/
def GoValue.asError : GoValue → GoError
  | .err e => e
  | _ => .nil

/-! ## The `Error` methods -/

/-- The method call `e.Error()` by dynamic dispatch; `none` is a run-time
panic (a nil interface, a nil or dangling pointer, a panicking method).

* `InvalidConfigurationError.Error` and `InvalidContentError.Error` return
  `e.Name`;
* `LocationDeniedError.Error`, `ValidationError.Error` and
  `RiskyAnnotationError.Error` return `e.Reason.Error()`;
* the library types return their stored text. -/
def GoError.Error (h : Heap) : GoError → Option String
  | .nil => none
  | .errorString p =>
    match h[p]? with
    | some (.errorString s) => some s
    | _ => none
  | .wrapError p =>
    match h[p]? with
    | some (.wrapError msg _) => some msg
    | _ => none
  | .wrapErrors p =>
    match h[p]? with
    | some (.wrapErrors msg _) => some msg
    | _ => none
  | .InvalidConfigurationError Name => some Name
  | .InvalidContentError Name => some Name
  | .LocationDeniedError Reason => Reason.Error h
  | .ValidationError Reason => Reason.Error h
  | .RiskyAnnotationError Reason => Reason.Error h
  | .foreign _ msg => msg

/-! ## The standard library: `errors.New` and the `fmt` printer -/

/-- The library function `errors.New`: `return &errorString{text}`. -/
def errors_New (text : String) (h : Heap) : GoError × Heap :=
  let r := alloc h (.errorString text)
  (.errorString r.1, r.2)

/-- The printer state `fmt.pp`, reduced to the fields that outlive one
operand. -/
structure pp where
  /-- the output written so far -/
  buf : String
  /-- whether an explicit argument index was used -/
  reordered : Bool
  /-- whether `%w` is permitted (set by `Errorf` only) -/
  wrapErrs : Bool
  /-- the argument numbers of the `%w` operands seen -/
  wrappedErrs : List Nat
  deriving DecidableEq, Repr

/-- The behaviours of `fmt` that are not embedded. Theorems hold for every
value of this structure. -/
structure FmtLib where
  /-- what `printArg` writes for an operand and verb outside the embedded
  cases -/
  printOther : Heap → GoValue → Char → String
  /-- the text of `reflect.TypeOf(arg).String()` -/
  typeString : GoValue → String
  /-- the rest of a `doPrintf` run from a directive that carries flags, a
  width, a precision, an argument index or a verb that is not a lower-case
  letter: given the printer state, the format after the `%`, the argument
  number and the operands, the final printer state -/
  complex : Heap → pp → List Char → Nat → List GoValue → pp

/-- The library method `(*pp).printArg` for a directive without flags.

* a nil operand prints `<nil>` under `%v` and is a bad verb otherwise;
* a `string` prints itself under `%v` and `%s` (`fmtString`, `fmtS` with no
  width and no precision);
* an error of a type known here prints `Error()` under `%v` and `%s`, and
  under `%w` when the printer permits it (`handleMethods`);
* everything else is left to `lib.printOther`. -/
def printArg (lib : FmtLib) (h : Heap) (wrapErrs : Bool) (arg : GoValue) (verb : Char) :
    String :=
  match arg with
  | .nil =>
    if verb = 'v' then "<nil>" else ("%!".push verb) ++ "(<nil>)"
  | .err .nil =>
    if verb = 'v' then "<nil>" else ("%!".push verb) ++ "(<nil>)"
  | .str s =>
    if verb = 'v' ∨ verb = 's' then s else lib.printOther h arg verb
  | .err (.foreign _ _) => lib.printOther h arg verb
  | .err e =>
    if verb = 'v' ∨ verb = 's' ∨ (verb = 'w' ∧ wrapErrs = true) then
      match e.Error h with
      | some m => m
      | none => lib.printOther h arg verb
    else lib.printOther h arg verb
  | .other _ => lib.printOther h arg verb

/-- The tail of `doPrintf`: operands left over are reported, unless the
arguments were accessed out of order. -/
def extraArgs (lib : FmtLib) (h : Heap) (a : List GoValue) (argNum : Nat) (p : pp) : pp :=
  if p.reordered = false ∧ argNum < a.length then
    { p with
      buf := p.buf ++ "%!(EXTRA " ++
        ", ".intercalate ((a.drop argNum).map fun arg =>
          if arg = .nil ∨ arg = .err .nil then "<nil>"
          else lib.typeString arg ++ "=" ++ printArg lib h p.wrapErrs arg 'v') ++ ")" }
  else p

/-- The library method `(*pp).doPrintf`, run over the characters of the
format that remain, with the number of the next operand.

* text up to a `%` is copied;
* a `%` that ends the format writes `%!(NOVERB)`;
* `%%` writes a percent sign and takes no operand;
* a `%` followed by a lower-case letter is the fast path of the library when
  an operand is left (`%w` records the argument number, then `printArg`),
  and writes `%!verb(MISSING)` when none is left;
* any other directive is left to `lib.complex`. -/
def doPrintf (lib : FmtLib) (h : Heap) (a : List GoValue) : List Char → Nat → pp → pp
  | [], argNum, p => extraArgs lib h a argNum p
  | c :: rest, argNum, p =>
    if c ≠ '%' then
      doPrintf lib h a rest argNum { p with buf := p.buf.push c }
    else
      match rest with
      | [] => extraArgs lib h a argNum { p with buf := p.buf ++ "%!(NOVERB)" }
      | verb :: rest2 =>
        if verb = '%' then
          doPrintf lib h a rest2 argNum { p with buf := p.buf.push '%' }
        else if verb.isLower = true then
          match a[argNum]? with
          | some arg =>
            let p1 : pp :=
              if verb = 'w' then { p with wrappedErrs := p.wrappedErrs ++ [argNum] } else p
            doPrintf lib h a rest2 (argNum + 1)
              { p1 with buf := p1.buf ++ printArg lib h p1.wrapErrs arg verb }
          | none =>
            doPrintf lib h a rest2 argNum
              { p with buf := p.buf ++ ("%!".push verb) ++ "(MISSING)" }
        else lib.complex h p rest argNum a

/-- The library function `fmt.Sprintf`: a fresh printer, `doPrintf`, and the
text of the buffer. -/
def fmt_Sprintf (lib : FmtLib) (h : Heap) (format : String) (a : List GoValue) : String :=
  (doPrintf lib h a format.toList 0
    { buf := "", reordered := false, wrapErrs := false, wrappedErrs := [] }).buf

/-- The operands that `fmt.Errorf` stores in a `wrapErrors`: the argument
numbers in order (sorted when the arguments were reordered), a number equal to
its predecessor skipped, and only operands that are errors kept. -/
def wrappedOperands (a : List GoValue) (reordered : Bool) (idx : List Nat) : List GoError :=
  let sorted := if reordered then idx.mergeSort (fun x y => decide (x ≤ y)) else idx
  (sorted.eraseReps.filterMap fun i => a[i]?).filterMap fun v =>
    match v with
    | .err .nil => none
    | .err e => some e
    | _ => none

/-- The library function `fmt.Errorf`: the text is printed with `%w`
permitted; no `%w` operand gives `errors.New(s)`, one gives
`&wrapError{s, err}`, several give `&wrapErrors{s, errs}`. -/
def fmt_Errorf (lib : FmtLib) (format : String) (a : List GoValue) (h : Heap) :
    GoError × Heap :=
  let p := doPrintf lib h a format.toList 0
    { buf := "", reordered := false, wrapErrs := true, wrappedErrs := [] }
  match p.wrappedErrs with
  | [] => errors_New p.buf h
  | [i] =>
    let r := alloc h (.wrapError p.buf ((a.getD i .nil).asError))
    (.wrapError r.1, r.2)
  | idx =>
    let r := alloc h (.wrapErrors p.buf (wrappedOperands a p.reordered idx))
    (.wrapErrors r.1, r.2)

/-! ## The package `errors` of the ingress controller -/

/-- The heap after package initialisation: the two `errors.New` calls of the
`var` block, in order. -/
def initHeap : Heap :=
  (errors_New "invalid annotation name"
    (errors_New "ingress rule without annotations" []).2).2

/-- The package variable `ErrMissingAnnotations`. -/
def ErrMissingAnnotations : GoError :=
  (errors_New "ingress rule without annotations" []).1

/-- The package variable `ErrInvalidAnnotationName`. -/
def ErrInvalidAnnotationName : GoError :=
  (errors_New "invalid annotation name"
    (errors_New "ingress rule without annotations" []).2).1

/-- A heap of the running program: package initialisation has happened, and
whatever was allocated since lies behind the two package variables. -/
def Heap.initialised (h : Heap) : Prop := h.take initHeap.length = initHeap

instance (h : Heap) : Decidable h.initialised := by
  unfold Heap.initialised; infer_instance

/-- `NewInvalidAnnotationConfiguration` of `errors.go`. -/
def NewInvalidAnnotationConfiguration (lib : FmtLib) (h : Heap) (name reason : String) :
    GoError :=
  .InvalidConfigurationError
    (fmt_Sprintf lib h "the annotation %v does not contain a valid configuration: %v"
      [.str name, .str reason])

/-- `NewInvalidAnnotationContent` of `errors.go`. -/
def NewInvalidAnnotationContent (lib : FmtLib) (h : Heap) (name : String) (val : GoValue) :
    GoError :=
  .InvalidContentError
    (fmt_Sprintf lib h "the annotation %v does not contain a valid value (%v)"
      [.str name, val])

/-- `NewLocationDenied` of `errors.go`. -/
def NewLocationDenied (lib : FmtLib) (reason : String) (h : Heap) : GoError × Heap :=
  let r := fmt_Errorf lib "location denied, reason: %v" [.str reason] h
  (.LocationDeniedError r.1, r.2)

/-- `IsLocationDenied` of `errors.go`: the type assertion
`e.(LocationDeniedError)`. -/
def IsLocationDenied (e : GoError) : Bool :=
  match e with
  | .LocationDeniedError _ => true
  | _ => false

/-- `IsMissingAnnotations` of `errors.go`: the interface comparison
`e == ErrMissingAnnotations`, equal dynamic types and equal values. The
package variable holds a pointer, so the comparison is of addresses and cannot
panic. -/
def IsMissingAnnotations (e : GoError) : Bool :=
  decide (e = ErrMissingAnnotations)

/-- `IsInvalidContent` of `errors.go`: the type assertion
`e.(InvalidContentError)`. -/
def IsInvalidContent (e : GoError) : Bool :=
  match e with
  | .InvalidContentError _ => true
  | _ => false

/-- `New` of `errors.go`: `errors.New(m)`. -/
def New (m : String) (h : Heap) : GoError × Heap := errors_New m h

/-- `Errorf` of `errors.go`: `fmt.Errorf(format, args...)`. -/
def Errorf (lib : FmtLib) (format : String) (args : List GoValue) (h : Heap) :
    GoError × Heap :=
  fmt_Errorf lib format args h

/-- `NewValidationError` of `errors.go`. -/
def NewValidationError (lib : FmtLib) ( annotation : String) (h : Heap) : GoError × Heap :=
  let r := fmt_Errorf lib "annotation %s contains invalid value" [.str annotation] h
  (.ValidationError r.1, r.2)

/-- `IsValidationError` of `errors.go`: the type assertion
`e.(ValidationError)`. -/
def IsValidationError (e : GoError) : Bool :=
  match e with
  | .ValidationError _ => true
  | _ => false

/-- `NewRiskyAnnotations` of `errors.go`. -/
def NewRiskyAnnotations (lib : FmtLib) (name : String) (h : Heap) : GoError × Heap :=
  let r := fmt_Errorf lib
    "annotation group %s contains risky annotation based on ingress configuration"
    [.str name] h
  (.RiskyAnnotationError r.1, r.2)

/-- `IsRiskyAnnotationError` of `errors.go`: the type assertion
`e.(ValidationError)`, as the source has it. -/
def IsRiskyAnnotationError (e : GoError) : Bool :=
  match e with
  | .ValidationError _ => true
  | _ => false

/-- A library whose unembedded behaviours are fixed arbitrarily, for
evaluating the definitions at concrete inputs. -/
def FmtLib.sample : FmtLib where
  printOther := fun _ _ verb => ("%!".push verb) ++ "(?)"
  typeString := fun _ => "?"
  complex := fun _ p _ _ _ => p

/-- A library behaviour in which the text of an operand of another type
follows the state of the program, as it does for a value whose `String` method
reads mutable state: the operand prints one mark for each object allocated so
far. -/
def FmtLib.stateful : FmtLib where
  printOther := fun h _ _ => String.mk (List.replicate h.length '*')
  typeString := fun _ => "?"
  complex := fun _ p _ _ _ => p

/-! ## The printer on the formats of `errors.go` -/

theorem doPrintf_cons_ne (lib : FmtLib) (h : Heap) (a : List GoValue) (c : Char)
    (rest : List Char) (hc : c ≠ '%') (n : Nat) (p : pp) :
    doPrintf lib h a (c :: rest) n p
      = doPrintf lib h a rest n { p with buf := p.buf.push c } := by
  cases rest <;> simp [doPrintf, hc]

theorem doPrintf_chars (lib : FmtLib) (h : Heap) (a : List GoValue) (t rest : List Char)
    (ht : ∀ c ∈ t, c ≠ '%') (n : Nat) (p : pp) :
    doPrintf lib h a (t ++ rest) n p
      = doPrintf lib h a rest n { p with buf := p.buf ++ String.mk t } := by
  induction t generalizing p with
  | nil =>
    have : p.buf ++ String.mk [] = p.buf := String.ext (by simp)
    simp [this]
  | cons c cs ih =>
    have hc : c ≠ '%' := ht c (List.mem_cons_self c cs)
    have hcs : ∀ d ∈ cs, d ≠ '%' := fun d hd => ht d (List.mem_cons_of_mem c hd)
    have hb : p.buf.push c ++ String.mk cs = p.buf ++ String.mk (c :: cs) :=
      String.ext (by simp)
    rw [List.cons_append, doPrintf_cons_ne lib h a c _ hc, ih hcs]
    simp [hb]

/-- Text without a percent sign is copied to the buffer. -/
theorem doPrintf_text (lib : FmtLib) (h : Heap) (a : List GoValue) (t : String)
    (rest : List Char) (ht : ∀ c ∈ t.toList, c ≠ '%') (n : Nat) (p : pp) :
    doPrintf lib h a (t.toList ++ rest) n p
      = doPrintf lib h a rest n { p with buf := p.buf ++ t } :=
  doPrintf_chars lib h a t.toList rest ht n p

/-- The directives `%v` and `%s` print the next operand and move on. -/
theorem doPrintf_verb (lib : FmtLib) (h : Heap) (a : List GoValue) (verb : Char)
    (rest : List Char) (n : Nat) (p : pp) (arg : GoValue)
    (hv : verb = 'v' ∨ verb = 's') (ha : a[n]? = some arg) :
    doPrintf lib h a ('%' :: verb :: rest) n p
      = doPrintf lib h a rest (n + 1)
          { p with buf := p.buf ++ printArg lib h p.wrapErrs arg verb } := by
  rcases hv with rfl | rfl <;> simp [doPrintf, ha, Char.isLower]

/-- The directive `%w` records the operand, prints it and moves on. -/
theorem doPrintf_w (lib : FmtLib) (h : Heap) (a : List GoValue)
    (rest : List Char) (n : Nat) (p : pp) (arg : GoValue) (ha : a[n]? = some arg) :
    doPrintf lib h a ('%' :: 'w' :: rest) n p
      = doPrintf lib h a rest (n + 1)
          { p with buf := p.buf ++ printArg lib h p.wrapErrs arg 'w'
                   wrappedErrs := p.wrappedErrs ++ [n] } := by
  simp [doPrintf, ha, Char.isLower]

/-- At the end of the format, with every operand used, nothing is added. -/
theorem doPrintf_nil (lib : FmtLib) (h : Heap) (a : List GoValue) (n : Nat) (p : pp)
    (hn : a.length ≤ n) : doPrintf lib h a [] n p = p := by
  simp [doPrintf, extraArgs, Nat.not_lt.mpr hn]

/-- A string operand prints as itself under `%v` and `%s`. -/
theorem printArg_str (lib : FmtLib) (h : Heap) (w : Bool) (s : String) (verb : Char)
    (hv : verb = 'v' ∨ verb = 's') : printArg lib h w (.str s) verb = s := by
  simp [printArg, hv]

theorem sprintf_configuration (lib : FmtLib) (h : Heap) (name reason : String) :
    fmt_Sprintf lib h "the annotation %v does not contain a valid configuration: %v"
        [.str name, .str reason]
      = "the annotation " ++ name ++ " does not contain a valid configuration: " ++ reason := by
  have hf : "the annotation %v does not contain a valid configuration: %v".toList
      = "the annotation ".toList ++ '%' :: 'v' ::
          (" does not contain a valid configuration: ".toList ++ '%' :: 'v' :: []) := by
    decide
  unfold fmt_Sprintf
  rw [hf, doPrintf_text _ _ _ _ _ (by decide),
    doPrintf_verb _ _ _ _ _ _ _ (.str name) (.inl rfl) (by rfl),
    doPrintf_text _ _ _ _ _ (by decide),
    doPrintf_verb _ _ _ _ _ _ _ (.str reason) (.inl rfl) (by rfl),
    doPrintf_nil _ _ _ _ _ (by simp)]
  simp [printArg_str]

theorem sprintf_content (lib : FmtLib) (h : Heap) (name : String) (val : GoValue) :
    fmt_Sprintf lib h "the annotation %v does not contain a valid value (%v)" [.str name, val]
      = "the annotation " ++ name ++ " does not contain a valid value ("
          ++ printArg lib h false val 'v' ++ ")" := by
  have hf : "the annotation %v does not contain a valid value (%v)".toList
      = "the annotation ".toList ++ '%' :: 'v' ::
          (" does not contain a valid value (".toList ++ '%' :: 'v' :: (")".toList ++ [])) := by
    decide
  unfold fmt_Sprintf
  rw [hf, doPrintf_text _ _ _ _ _ (by decide),
    doPrintf_verb _ _ _ _ _ _ _ (.str name) (.inl rfl) (by rfl),
    doPrintf_text _ _ _ _ _ (by decide),
    doPrintf_verb _ _ _ _ _ _ _ val (.inl rfl) (by rfl),
    doPrintf_text _ _ _ _ _ (by decide),
    doPrintf_nil _ _ _ _ _ (by simp)]
  simp [printArg_str]

theorem errorf_locationDenied (lib : FmtLib) (reason : String) (h : Heap) :
    fmt_Errorf lib "location denied, reason: %v" [.str reason] h
      = errors_New ("location denied, reason: " ++ reason) h := by
  have hf : "location denied, reason: %v".toList
      = "location denied, reason: ".toList ++ '%' :: 'v' :: [] := by decide
  unfold fmt_Errorf
  rw [hf, doPrintf_text _ _ _ _ _ (by decide),
    doPrintf_verb _ _ _ _ _ _ _ (.str reason) (.inl rfl) (by rfl),
    doPrintf_nil _ _ _ _ _ (by simp)]
  simp [printArg_str]

/-- The result of `NewLocationDenied`: a `LocationDeniedError` whose `Reason`
points to the fresh `errorString` that carries the text. -/
theorem newLocationDenied_eq (lib : FmtLib) (reason : String) (h : Heap) :
    NewLocationDenied lib reason h
      = (.LocationDeniedError (.errorString h.length),
          h ++ [.errorString ("location denied, reason: " ++ reason)]) := by
  unfold NewLocationDenied
  rw [errorf_locationDenied]
  rfl

/-! ## Allocation and the results of `fmt.Errorf` -/

/-- An initialised heap holds at least the two package variables. -/
theorem initialised_length (h : Heap) (hh : h.initialised) : 2 ≤ h.length := by
  have hl := congrArg List.length hh
  simp [initHeap, errors_New, alloc] at hl
  exact hl

/-- A pointer to a fresh `errorString` is not the pointer held by
`ErrMissingAnnotations`. -/
theorem fresh_ne_sentinel (h : Heap) (hh : h.initialised) :
    GoError.errorString h.length ≠ ErrMissingAnnotations := by
  have hl := initialised_length h hh
  intro he
  have h0 : h.length = 0 := GoError.errorString.inj he
  omega

/-- Whatever the format and the operands, `fmt.Errorf` returns a pointer to
the object it has just allocated, of one of the three library types. -/
theorem fmt_Errorf_fst (lib : FmtLib) (format : String) (a : List GoValue) (h : Heap) :
    (fmt_Errorf lib format a h).1 = .errorString h.length ∨
    (fmt_Errorf lib format a h).1 = .wrapError h.length ∨
    (fmt_Errorf lib format a h).1 = .wrapErrors h.length := by
  unfold fmt_Errorf
  simp only []
  split
  · left; rfl
  · right; left; rfl
  · right; right; rfl

/-- What `fmt.Errorf` returns is never the nil error. -/
theorem fmt_Errorf_ne_nil (lib : FmtLib) (format : String) (a : List GoValue) (h : Heap) :
    (fmt_Errorf lib format a h).1 ≠ .nil := by
  rcases fmt_Errorf_fst lib format a h with hp | hp | hp <;> rw [hp] <;>
    exact fun he => GoError.noConfusion he

/-! ## The classification predicates -/

/-- C1: for every group name `g`, `IsRiskyAnnotationError(NewRiskyAnnotations(g))`
is false, and for every annotation name `a`,
`IsRiskyAnnotationError(NewValidationError(a))` is true. -/
theorem isRiskyAnnotationError_tests_validationError (lib : FmtLib) (h : Heap) :
    (∀ g : String, IsRiskyAnnotationError (NewRiskyAnnotations lib g h).1 = false) ∧
    (∀ a : String, IsRiskyAnnotationError (NewValidationError lib a h).1 = true) :=
  ⟨fun _ => rfl, fun _ => rfl⟩

/-- C2: for every error value `e`, nil included, `IsMissingAnnotations(e)` is
true exactly when `e` is the value of `ErrMissingAnnotations`; it is true on
`ErrMissingAnnotations`, false on nil and on `ErrInvalidAnnotationName`, and
false on `New("ingress rule without annotations")`, a fresh error whose text
is that of the package variable. -/
theorem isMissingAnnotations_iff_sentinel (e : GoError) (h : Heap) (hh : h.initialised) :
    (IsMissingAnnotations e = true ↔ e = ErrMissingAnnotations) ∧
    IsMissingAnnotations ErrMissingAnnotations = true ∧
    IsMissingAnnotations .nil = false ∧
    IsMissingAnnotations ErrInvalidAnnotationName = false ∧
    IsMissingAnnotations (New "ingress rule without annotations" h).1 = false ∧
    (New "ingress rule without annotations" h).1.Error
        (New "ingress rule without annotations" h).2
      = ErrMissingAnnotations.Error h := by
  refine ⟨by simp [IsMissingAnnotations], by decide, by decide, by decide, ?_, ?_⟩
  · simpa [IsMissingAnnotations, New, errors_New, alloc] using fresh_ne_sentinel h hh
  · have hl := initialised_length h hh
    have h0 : h[0]? = some (.errorString "ingress rule without annotations") := by
      have := congrArg (fun l : Heap => l[0]?) hh
      simpa [initHeap, errors_New, alloc, List.getElem?_take] using this
    simp [New, errors_New, alloc, ErrMissingAnnotations, GoError.Error, h0]

/-- The claim C2 at the heap of package initialisation. -/
theorem isMissingAnnotations_iff_sentinel_witness :
    Heap.initialised initHeap ∧
    IsMissingAnnotations (New "ingress rule without annotations" initHeap).1 = false ∧
    (New "ingress rule without annotations" initHeap).1.Error
        (New "ingress rule without annotations" initHeap).2
      = some "ingress rule without annotations" :=
  ⟨by decide,
    (isMissingAnnotations_iff_sentinel .nil initHeap (by decide)).2.2.2.2.1,
    (isMissingAnnotations_iff_sentinel .nil initHeap (by decide)).2.2.2.2.2.trans (by decide)⟩

/-- C3, as amended: `IsLocationDenied(e)` is true exactly when the dynamic
type of `e` is `LocationDeniedError`, whether `e` was produced by
`NewLocationDenied` or written as a struct literal: it is true on
`NewLocationDenied(r)` for every reason `r`, and false on every value returned
by `NewValidationError`, `NewRiskyAnnotations`, `NewInvalidAnnotationContent`
and `NewInvalidAnnotationConfiguration`, and on both package variables. -/
theorem isLocationDenied_iff_type (e : GoError) :
    (IsLocationDenied e = true ↔ ∃ r, e = .LocationDeniedError r) ∧
    (∀ lib reason h, IsLocationDenied (NewLocationDenied lib reason h).1 = true) ∧
    (∀ lib a h, IsLocationDenied (NewValidationError lib a h).1 = false) ∧
    (∀ lib g h, IsLocationDenied (NewRiskyAnnotations lib g h).1 = false) ∧
    (∀ lib h n v, IsLocationDenied (NewInvalidAnnotationContent lib h n v) = false) ∧
    (∀ lib h n r, IsLocationDenied (NewInvalidAnnotationConfiguration lib h n r) = false) ∧
    IsLocationDenied ErrMissingAnnotations = false ∧
    IsLocationDenied ErrInvalidAnnotationName = false := by
  refine ⟨?_, fun _ _ _ => rfl, fun _ _ _ => rfl, fun _ _ _ => rfl, fun _ _ _ _ => rfl,
    fun _ _ _ _ => rfl, rfl, rfl⟩
  cases e <;> simp [IsLocationDenied]

/-- C3 as stated fails: the struct literal `LocationDeniedError{}` is a denied
location for the predicate, and it is not a result of `NewLocationDenied`,
whose `Reason` is never nil. -/
theorem isLocationDenied_struct_literal :
    IsLocationDenied (.LocationDeniedError .nil) = true ∧
    (¬ ∃ lib reason h,
      GoError.LocationDeniedError .nil = (NewLocationDenied lib reason h).1) ∧
    ¬ ∀ e : GoError, (IsLocationDenied e = true ↔
      ∃ lib reason h, e = (NewLocationDenied lib reason h).1) := by
  have hn : ¬ ∃ lib reason h,
      GoError.LocationDeniedError .nil = (NewLocationDenied lib reason h).1 := by
    rintro ⟨lib, reason, h, he⟩
    exact fmt_Errorf_ne_nil lib _ _ h (GoError.LocationDeniedError.inj he).symm
  exact ⟨rfl, hn, fun ha => hn ((ha (.LocationDeniedError .nil)).mp rfl)⟩

/-- C4: every predicate returns false on a nil error, and on `New(m)` for
every message `m`; none of them can panic, a predicate being a comma-ok type
assertion or a comparison with a pointer. -/
theorem predicates_false_on_nil_and_New (m : String) (h : Heap) (hh : h.initialised) :
    (IsLocationDenied .nil = false ∧ IsMissingAnnotations .nil = false ∧
      IsInvalidContent .nil = false ∧ IsValidationError .nil = false ∧
      IsRiskyAnnotationError .nil = false) ∧
    (IsLocationDenied (New m h).1 = false ∧ IsMissingAnnotations (New m h).1 = false ∧
      IsInvalidContent (New m h).1 = false ∧ IsValidationError (New m h).1 = false ∧
      IsRiskyAnnotationError (New m h).1 = false) := by
  refine ⟨⟨rfl, by decide, rfl, rfl, rfl⟩, ⟨rfl, ?_, rfl, rfl, rfl⟩⟩
  simpa [IsMissingAnnotations, New, errors_New, alloc] using fresh_ne_sentinel h hh

/-- The claim C4 on `New("anything")` after package initialisation. -/
theorem predicates_false_on_nil_and_New_witness :
    Heap.initialised initHeap ∧
    IsLocationDenied (New "anything" initHeap).1 = false ∧
    IsMissingAnnotations (New "anything" initHeap).1 = false ∧
    IsInvalidContent (New "anything" initHeap).1 = false ∧
    IsValidationError (New "anything" initHeap).1 = false ∧
    IsRiskyAnnotationError (New "anything" initHeap).1 = false :=
  ⟨by decide, (predicates_false_on_nil_and_New "anything" initHeap (by decide)).2⟩

/-- C5, as amended: `IsInvalidContent(e)` is true exactly when the dynamic
type of `e` is `InvalidContentError`, whether `e` was produced by
`NewInvalidAnnotationContent` or written as a struct literal: it is true on
`NewInvalidAnnotationContent(n, v)` for every name and value, and false on
every value returned by `NewInvalidAnnotationConfiguration` (whose payload has
the same shape), `NewLocationDenied`, `NewValidationError` and
`NewRiskyAnnotations`, and on both package variables. -/
theorem isInvalidContent_iff_type (e : GoError) :
    (IsInvalidContent e = true ↔ ∃ Name, e = .InvalidContentError Name) ∧
    (∀ lib h n v, IsInvalidContent (NewInvalidAnnotationContent lib h n v) = true) ∧
    (∀ lib h n r, IsInvalidContent (NewInvalidAnnotationConfiguration lib h n r) = false) ∧
    (∀ lib reason h, IsInvalidContent (NewLocationDenied lib reason h).1 = false) ∧
    (∀ lib a h, IsInvalidContent (NewValidationError lib a h).1 = false) ∧
    (∀ lib g h, IsInvalidContent (NewRiskyAnnotations lib g h).1 = false) ∧
    IsInvalidContent ErrMissingAnnotations = false ∧
    IsInvalidContent ErrInvalidAnnotationName = false := by
  refine ⟨?_, fun _ _ _ _ => rfl, fun _ _ _ _ => rfl, fun _ _ _ => rfl, fun _ _ _ => rfl,
    fun _ _ _ => rfl, rfl, rfl⟩
  cases e <;> simp [IsInvalidContent]

/-- C5 as stated fails: the struct literal `InvalidContentError{}`, with an
empty `Name`, is invalid content for the predicate, and it is not a result of
`NewInvalidAnnotationContent`, whose message is never empty. -/
theorem isInvalidContent_struct_literal :
    IsInvalidContent (.InvalidContentError "") = true ∧
    (¬ ∃ lib h n v,
      GoError.InvalidContentError "" = NewInvalidAnnotationContent lib h n v) ∧
    ¬ ∀ e : GoError, (IsInvalidContent e = true ↔
      ∃ lib h n v, e = NewInvalidAnnotationContent lib h n v) := by
  have hn : ¬ ∃ lib h n v,
      GoError.InvalidContentError "" = NewInvalidAnnotationContent lib h n v := by
    rintro ⟨lib, h, n, v, he⟩
    have hs := GoError.InvalidContentError.inj he
    rw [sprintf_content] at hs
    have hl := congrArg String.length hs
    simp only [String.length_append] at hl
    have h0 : "".length = 0 := rfl
    have h1 : "the annotation ".length = 15 := rfl
    omega
  exact ⟨rfl, hn, fun ha => hn ((ha (.InvalidContentError "")).mp rfl)⟩

/-- C6, as amended: `IsValidationError(e)` is true exactly when the dynamic
type of `e` is `ValidationError`, whether `e` was produced by
`NewValidationError` or written as a struct literal: it is true on
`NewValidationError(a)` for every annotation name, and false on every value
returned by `NewRiskyAnnotations`, `NewLocationDenied`,
`NewInvalidAnnotationContent` and `NewInvalidAnnotationConfiguration`, and on
both package variables. -/
theorem isValidationError_iff_type (e : GoError) :
    (IsValidationError e = true ↔ ∃ r, e = .ValidationError r) ∧
    (∀ lib a h, IsValidationError (NewValidationError lib a h).1 = true) ∧
    (∀ lib g h, IsValidationError (NewRiskyAnnotations lib g h).1 = false) ∧
    (∀ lib reason h, IsValidationError (NewLocationDenied lib reason h).1 = false) ∧
    (∀ lib h n v, IsValidationError (NewInvalidAnnotationContent lib h n v) = false) ∧
    (∀ lib h n r, IsValidationError (NewInvalidAnnotationConfiguration lib h n r) = false) ∧
    IsValidationError ErrMissingAnnotations = false ∧
    IsValidationError ErrInvalidAnnotationName = false := by
  refine ⟨?_, fun _ _ _ => rfl, fun _ _ _ => rfl, fun _ _ _ => rfl, fun _ _ _ _ => rfl,
    fun _ _ _ _ => rfl, rfl, rfl⟩
  cases e <;> simp [IsValidationError]

/-- C6 as stated fails: the struct literal `ValidationError{}` is a validation
error for the predicate, and it is not a result of `NewValidationError`, whose
`Reason` is never nil. -/
theorem isValidationError_struct_literal :
    IsValidationError (.ValidationError .nil) = true ∧
    (¬ ∃ lib a h, GoError.ValidationError .nil = (NewValidationError lib a h).1) ∧
    ¬ ∀ e : GoError, (IsValidationError e = true ↔
      ∃ lib a h, e = (NewValidationError lib a h).1) := by
  have hn : ¬ ∃ lib a h,
      GoError.ValidationError .nil = (NewValidationError lib a h).1 := by
    rintro ⟨lib, a, h, he⟩
    exact fmt_Errorf_ne_nil lib _ _ h (GoError.ValidationError.inj he).symm
  exact ⟨rfl, hn, fun ha => hn ((ha (.ValidationError .nil)).mp rfl)⟩

/-- C7: for every format string and every argument list, the error returned
by `Errorf(format, args...)` is unclassified: all five predicates are false on
it. That covers a classified operand: `Errorf("%w", d)` with `d` from
`NewLocationDenied` allocates a `wrapError` that holds `d` and carries its
text, and is itself not a denied location, and neither is `Errorf("%v", d)`. -/
theorem errorf_unclassified (lib : FmtLib) (format : String) (args : List GoValue)
    (reason : String) (h : Heap) (hh : h.initialised) :
    (IsLocationDenied (Errorf lib format args h).1 = false ∧
      IsMissingAnnotations (Errorf lib format args h).1 = false ∧
      IsInvalidContent (Errorf lib format args h).1 = false ∧
      IsValidationError (Errorf lib format args h).1 = false ∧
      IsRiskyAnnotationError (Errorf lib format args h).1 = false) ∧
    (IsLocationDenied (NewLocationDenied lib reason h).1 = true ∧
      (Errorf lib "%w" [.err (NewLocationDenied lib reason h).1]
          (NewLocationDenied lib reason h).2).2
        = (NewLocationDenied lib reason h).2 ++
            [.wrapError ("location denied, reason: " ++ reason)
              (NewLocationDenied lib reason h).1] ∧
      IsLocationDenied (Errorf lib "%w" [.err (NewLocationDenied lib reason h).1]
          (NewLocationDenied lib reason h).2).1 = false ∧
      IsLocationDenied (Errorf lib "%v" [.err (NewLocationDenied lib reason h).1]
          (NewLocationDenied lib reason h).2).1 = false) := by
  have hl := initialised_length h hh
  have hne : ∀ p : Nat, GoError.wrapError p ≠ ErrMissingAnnotations ∧
      GoError.wrapErrors p ≠ ErrMissingAnnotations := fun p =>
    ⟨fun hp => GoError.noConfusion hp, fun hp => GoError.noConfusion hp⟩
  refine ⟨?_, rfl, ?_, ?_, ?_⟩
  · rcases fmt_Errorf_fst lib format args h with hp | hp | hp
    · simp only [Errorf, hp]
      refine ⟨rfl, ?_, rfl, rfl, rfl⟩
      simpa [IsMissingAnnotations] using fresh_ne_sentinel h hh
    · simp only [Errorf, hp]
      exact ⟨rfl, by simpa [IsMissingAnnotations] using (hne h.length).1, rfl, rfl, rfl⟩
    · simp only [Errorf, hp]
      exact ⟨rfl, by simpa [IsMissingAnnotations] using (hne h.length).2, rfl, rfl, rfl⟩
  · have hf : "%w".toList = '%' :: 'w' :: [] := by decide
    unfold Errorf fmt_Errorf
    rw [hf, doPrintf_w _ _ _ _ _ _ _ (by rfl), doPrintf_nil _ _ _ _ _ (by simp)]
    simp [NewLocationDenied, errorf_locationDenied, errors_New, alloc, printArg,
      GoError.Error, GoValue.asError]
  · rcases fmt_Errorf_fst lib "%w" [.err (NewLocationDenied lib reason h).1]
      (NewLocationDenied lib reason h).2 with hp | hp | hp <;> simp only [Errorf, hp] <;> rfl
  · rcases fmt_Errorf_fst lib "%v" [.err (NewLocationDenied lib reason h).1]
      (NewLocationDenied lib reason h).2 with hp | hp | hp <;> simp only [Errorf, hp] <;> rfl

/-- The claim C7 on a format with two `%w` operands, one of them a denied
location, after package initialisation. -/
theorem errorf_unclassified_witness :
    Heap.initialised initHeap ∧
    IsLocationDenied (Errorf FmtLib.sample "%w: %w"
      [.err (.LocationDeniedError ErrInvalidAnnotationName), .err ErrMissingAnnotations]
      initHeap).1 = false ∧
    IsMissingAnnotations (Errorf FmtLib.sample "%w: %w"
      [.err (.LocationDeniedError ErrInvalidAnnotationName), .err ErrMissingAnnotations]
      initHeap).1 = false :=
  ⟨by decide,
    (errorf_unclassified FmtLib.sample "%w: %w"
      [.err (.LocationDeniedError ErrInvalidAnnotationName), .err ErrMissingAnnotations]
      "foo" initHeap (by decide)).1.1,
    (errorf_unclassified FmtLib.sample "%w: %w"
      [.err (.LocationDeniedError ErrInvalidAnnotationName), .err ErrMissingAnnotations]
      "foo" initHeap (by decide)).1.2.1⟩

/-! ## The messages -/

/-- C8: for every name `n` and value `v`, the message of
`NewInvalidAnnotationContent(n, v)` is exactly `"the annotation " ++ n ++
" does not contain a valid value (" ++ str(v) ++ ")"`, where `str(v)` is what
the printer writes for `v` under `%v`, which is `v` itself when `v` is a
string; hence the message contains both `n` and `str(v)`. -/
theorem newInvalidAnnotationContent_message (lib : FmtLib) (h : Heap) (n : String)
    (v : GoValue) :
    (NewInvalidAnnotationContent lib h n v).Error h
      = some ("the annotation " ++ n ++ " does not contain a valid value ("
          ++ printArg lib h false v 'v' ++ ")") ∧
    (∀ s : String, printArg lib h false (.str s) 'v' = s) ∧
    (∀ s : String, (NewInvalidAnnotationContent lib h n (.str s)).Error h
      = some ("the annotation " ++ n ++ " does not contain a valid value (" ++ s ++ ")")) ∧
    (∃ pre post : String,
      (NewInvalidAnnotationContent lib h n v).Error h = some (pre ++ n ++ post)) ∧
    (∃ pre post : String,
      (NewInvalidAnnotationContent lib h n v).Error h
        = some (pre ++ printArg lib h false v 'v' ++ post)) := by
  have hm : ∀ w : GoValue, (NewInvalidAnnotationContent lib h n w).Error h
      = some ("the annotation " ++ n ++ " does not contain a valid value ("
          ++ printArg lib h false w 'v' ++ ")") := fun w => by
    simp [NewInvalidAnnotationContent, GoError.Error, sprintf_content]
  have hs : ∀ s : String, printArg lib h false (.str s) 'v' = s := fun s =>
    printArg_str lib h false s 'v' (.inl rfl)
  refine ⟨hm v, hs, fun s => by rw [hm, hs], ?_, ?_⟩
  · refine ⟨"the annotation ",
      " does not contain a valid value (" ++ printArg lib h false v 'v' ++ ")", ?_⟩
    rw [hm]
    simp [String.append_assoc]
  · exact ⟨"the annotation " ++ n ++ " does not contain a valid value (", ")", hm v⟩

/-- C9: for every name and reason, the message of
`NewInvalidAnnotationConfiguration(name, reason)` is exactly
`"the annotation " ++ name ++ " does not contain a valid configuration: " ++ reason`. -/
theorem newInvalidAnnotationConfiguration_message (lib : FmtLib) (h : Heap)
    (name reason : String) :
    (NewInvalidAnnotationConfiguration lib h name reason).Error h
      = some ("the annotation " ++ name ++ " does not contain a valid configuration: "
          ++ reason) := by
  simp [NewInvalidAnnotationConfiguration, GoError.Error, sprintf_configuration]

/-- C10: for every reason `r`, also one that contains `%` verbs, the message
of `NewLocationDenied(r)` is exactly `"location denied, reason: " ++ r`. -/
theorem newLocationDenied_message (lib : FmtLib) (r : String) (h : Heap) :
    (NewLocationDenied lib r h).1.Error (NewLocationDenied lib r h).2
      = some ("location denied, reason: " ++ r) ∧
    (NewLocationDenied lib "%d of %s%%" h).1.Error (NewLocationDenied lib "%d of %s%%" h).2
      = some "location denied, reason: %d of %s%%" := by
  have hm : ∀ s : String, (NewLocationDenied lib s h).1.Error (NewLocationDenied lib s h).2
      = some ("location denied, reason: " ++ s) := fun s => by
    rw [newLocationDenied_eq]
    simp only [GoError.Error]
    rw [List.getElem?_concat_length]
  exact ⟨hm r, (hm "%d of %s%%").trans (by decide)⟩

/-! ## The remaining constructors and the text they carry -/

theorem errorf_validation (lib : FmtLib) (a : String) (h : Heap) :
    fmt_Errorf lib "annotation %s contains invalid value" [.str a] h
      = errors_New ("annotation " ++ a ++ " contains invalid value") h := by
  have hf : "annotation %s contains invalid value".toList
      = "annotation ".toList ++ '%' :: 's' :: (" contains invalid value".toList ++ []) := by
    decide
  unfold fmt_Errorf
  rw [hf, doPrintf_text _ _ _ _ _ (by decide),
    doPrintf_verb _ _ _ _ _ _ _ (.str a) (.inr rfl) (by rfl),
    doPrintf_text _ _ _ _ _ (by decide),
    doPrintf_nil _ _ _ _ _ (by simp)]
  simp [printArg_str]

theorem errorf_risky (lib : FmtLib) (g : String) (h : Heap) :
    fmt_Errorf lib
        "annotation group %s contains risky annotation based on ingress configuration"
        [.str g] h
      = errors_New ("annotation group " ++ g
          ++ " contains risky annotation based on ingress configuration") h := by
  have hf : "annotation group %s contains risky annotation based on ingress configuration".toList
      = "annotation group ".toList ++ '%' :: 's' ::
          (" contains risky annotation based on ingress configuration".toList ++ []) := by
    decide
  unfold fmt_Errorf
  rw [hf, doPrintf_text _ _ _ _ _ (by decide),
    doPrintf_verb _ _ _ _ _ _ _ (.str g) (.inr rfl) (by rfl),
    doPrintf_text _ _ _ _ _ (by decide),
    doPrintf_nil _ _ _ _ _ (by simp)]
  simp [printArg_str]

/-- The result of `NewValidationError`: a `ValidationError` whose `Reason`
points to the fresh `errorString` that carries the text. -/
theorem newValidationError_eq (lib : FmtLib) (a : String) (h : Heap) :
    NewValidationError lib a h
      = (.ValidationError (.errorString h.length),
          h ++ [.errorString ("annotation " ++ a ++ " contains invalid value")]) := by
  unfold NewValidationError
  rw [errorf_validation]
  rfl

/-- The result of `NewRiskyAnnotations`: a `RiskyAnnotationError` whose
`Reason` points to the fresh `errorString` that carries the text. -/
theorem newRiskyAnnotations_eq (lib : FmtLib) (g : String) (h : Heap) :
    NewRiskyAnnotations lib g h
      = (.RiskyAnnotationError (.errorString h.length),
          h ++ [.errorString ("annotation group " ++ g
            ++ " contains risky annotation based on ingress configuration")]) := by
  unfold NewRiskyAnnotations
  rw [errorf_risky]
  rfl

/-- A pointer to a fresh `errorString` yields its text in the heap that
allocated it and in every later heap. -/
theorem errorString_text (h t : Heap) (s : String) :
    (GoError.errorString h.length).Error (h ++ [.errorString s] ++ t) = some s := by
  have hg : (h ++ [HeapObj.errorString s] ++ t)[h.length]? = some (.errorString s) := by
    rw [List.append_assoc, List.getElem?_append_right (Nat.le_refl _)]
    simp
  simp only [GoError.Error, hg]

/-- The text of a denied location, in the heap of the call and in every later
heap. -/
theorem locationDenied_text (lib : FmtLib) (r : String) (h t : Heap) :
    (NewLocationDenied lib r h).1.Error ((NewLocationDenied lib r h).2 ++ t)
      = some ("location denied, reason: " ++ r) := by
  rw [newLocationDenied_eq]
  simp only [GoError.Error]
  exact errorString_text h t _

/-- The text of a validation error, in the heap of the call and in every
later heap. -/
theorem validationError_text (lib : FmtLib) (a : String) (h t : Heap) :
    (NewValidationError lib a h).1.Error ((NewValidationError lib a h).2 ++ t)
      = some ("annotation " ++ a ++ " contains invalid value") := by
  rw [newValidationError_eq]
  simp only [GoError.Error]
  exact errorString_text h t _

/-- The text of a risky-annotation error, in the heap of the call and in
every later heap. -/
theorem riskyAnnotations_text (lib : FmtLib) (g : String) (h t : Heap) :
    (NewRiskyAnnotations lib g h).1.Error ((NewRiskyAnnotations lib g h).2 ++ t)
      = some ("annotation group " ++ g
          ++ " contains risky annotation based on ingress configuration") := by
  rw [newRiskyAnnotations_eq]
  simp only [GoError.Error]
  exact errorString_text h t _

/-- C11: for every annotation name `a`, the message of `NewValidationError(a)`
is exactly `"annotation " ++ a ++ " contains invalid value"`. -/
theorem newValidationError_message (lib : FmtLib) (a : String) (h : Heap) :
    (NewValidationError lib a h).1.Error (NewValidationError lib a h).2
      = some ("annotation " ++ a ++ " contains invalid value") := by
  have ht := validationError_text lib a h []
  rwa [List.append_nil] at ht

/-- C12: for every group name `g`, the message of `NewRiskyAnnotations(g)` is
exactly `"annotation group " ++ g ++
" contains risky annotation based on ingress configuration"`. -/
theorem newRiskyAnnotations_message (lib : FmtLib) (g : String) (h : Heap) :
    (NewRiskyAnnotations lib g h).1.Error (NewRiskyAnnotations lib g h).2
      = some ("annotation group " ++ g
          ++ " contains risky annotation based on ingress configuration") := by
  have ht := riskyAnnotations_text lib g h []
  rwa [List.append_nil] at ht

/-- The message of an invalid-content error, as the text of its operand; it
is stored in the value, so it is the same in every heap. -/
theorem content_text (lib : FmtLib) (h k : Heap) (n : String) (v : GoValue) :
    (NewInvalidAnnotationContent lib h n v).Error k
      = some ("the annotation " ++ n ++ " does not contain a valid value ("
          ++ printArg lib h false v 'v' ++ ")") := by
  simp only [NewInvalidAnnotationContent, GoError.Error, sprintf_content]

/-- The message of an invalid-configuration error; it is stored in the value,
so it is the same in every heap. -/
theorem configuration_text (lib : FmtLib) (h k : Heap) (name reason : String) :
    (NewInvalidAnnotationConfiguration lib h name reason).Error k
      = some ("the annotation " ++ name ++ " does not contain a valid configuration: "
          ++ reason) := by
  simp only [NewInvalidAnnotationConfiguration, GoError.Error, sprintf_configuration]

/-- C13, as amended: every constructor other than the package variables is
deterministic in its message as far as its arguments are strings. Two calls
with identical arguments, made in any two heaps and with any two behaviours of
the unembedded library, yield errors with the same `Error()` string, whenever
`Error()` is called afterwards, for `NewInvalidAnnotationConfiguration`,
`NewLocationDenied`, `NewValidationError`, `NewRiskyAnnotations`, and for
`NewInvalidAnnotationContent` with a string or a nil value; with a value of
another type the two messages are identical provided the value prints the same
text under `%v` at both calls. -/
theorem constructors_deterministic (lib1 lib2 : FmtLib) (h1 h2 t1 t2 : Heap)
    (name reason a g s : String) (v : GoValue)
    (hv : printArg lib1 h1 false v 'v' = printArg lib2 h2 false v 'v') :
    (∃ m, (NewInvalidAnnotationConfiguration lib1 h1 name reason).Error (h1 ++ t1) = some m ∧
      (NewInvalidAnnotationConfiguration lib2 h2 name reason).Error (h2 ++ t2) = some m) ∧
    (∃ m, (NewInvalidAnnotationContent lib1 h1 name (.str s)).Error (h1 ++ t1) = some m ∧
      (NewInvalidAnnotationContent lib2 h2 name (.str s)).Error (h2 ++ t2) = some m) ∧
    (∃ m, (NewInvalidAnnotationContent lib1 h1 name .nil).Error (h1 ++ t1) = some m ∧
      (NewInvalidAnnotationContent lib2 h2 name .nil).Error (h2 ++ t2) = some m) ∧
    (∃ m, (NewInvalidAnnotationContent lib1 h1 name v).Error (h1 ++ t1) = some m ∧
      (NewInvalidAnnotationContent lib2 h2 name v).Error (h2 ++ t2) = some m) ∧
    (∃ m, (NewLocationDenied lib1 reason h1).1.Error
          ((NewLocationDenied lib1 reason h1).2 ++ t1) = some m ∧
      (NewLocationDenied lib2 reason h2).1.Error
          ((NewLocationDenied lib2 reason h2).2 ++ t2) = some m) ∧
    (∃ m, (NewValidationError lib1 a h1).1.Error
          ((NewValidationError lib1 a h1).2 ++ t1) = some m ∧
      (NewValidationError lib2 a h2).1.Error
          ((NewValidationError lib2 a h2).2 ++ t2) = some m) ∧
    (∃ m, (NewRiskyAnnotations lib1 g h1).1.Error
          ((NewRiskyAnnotations lib1 g h1).2 ++ t1) = some m ∧
      (NewRiskyAnnotations lib2 g h2).1.Error
          ((NewRiskyAnnotations lib2 g h2).2 ++ t2) = some m) := by
  have hn : ∀ (lib : FmtLib) (h : Heap), printArg lib h false .nil 'v' = "<nil>" :=
    fun _ _ => by simp [printArg]
  refine ⟨⟨_, configuration_text lib1 h1 _ name reason,
      configuration_text lib2 h2 _ name reason⟩,
    ⟨"the annotation " ++ name ++ " does not contain a valid value (" ++ s ++ ")", ?_, ?_⟩,
    ⟨"the annotation " ++ name ++ " does not contain a valid value (" ++ "<nil>" ++ ")", ?_, ?_⟩,
    ⟨_, content_text lib1 h1 _ name v, ?_⟩,
    ⟨_, locationDenied_text lib1 reason h1 t1, locationDenied_text lib2 reason h2 t2⟩,
    ⟨_, validationError_text lib1 a h1 t1, validationError_text lib2 a h2 t2⟩,
    ⟨_, riskyAnnotations_text lib1 g h1 t1, riskyAnnotations_text lib2 g h2 t2⟩⟩
  · rw [content_text, printArg_str _ _ _ _ _ (.inl rfl)]
  · rw [content_text, printArg_str _ _ _ _ _ (.inl rfl)]
  · rw [content_text, hn]
  · rw [content_text, hn]
  · rw [content_text, hv]

/-- The claim C13, as amended, on an error operand printed in the heap of
package initialisation and in a later heap: the operand prints the same text
in both, and so the two messages are the same. -/
theorem constructors_deterministic_witness :
    printArg FmtLib.sample initHeap false (.err ErrMissingAnnotations) 'v'
      = printArg FmtLib.sample (New "x" initHeap).2 false (.err ErrMissingAnnotations) 'v' ∧
    (NewInvalidAnnotationContent FmtLib.sample initHeap "a"
        (.err ErrMissingAnnotations)).Error initHeap
      = (NewInvalidAnnotationContent FmtLib.sample (New "x" initHeap).2 "a"
          (.err ErrMissingAnnotations)).Error (New "x" initHeap).2 :=
  have hd := constructors_deterministic FmtLib.sample FmtLib.sample initHeap
    (New "x" initHeap).2 [] [] "a" "r" "a" "g" "s" (.err ErrMissingAnnotations) (by decide)
  ⟨by decide, by
    obtain ⟨m, ha, hb⟩ := hd.2.2.2.1
    rw [List.append_nil] at ha hb
    exact ha.trans hb.symm⟩

/-- C13 as stated fails for `NewInvalidAnnotationContent`: with a value whose
text under `%v` follows the state of the program, two calls with the same name
and the same value, the second after one more allocation, give two different
messages. -/
theorem content_message_follows_operand_text :
    (NewInvalidAnnotationContent FmtLib.stateful initHeap "a" (.other 0)).Error initHeap
      = some "the annotation a does not contain a valid value (**)" ∧
    (NewInvalidAnnotationContent FmtLib.stateful (New "x" initHeap).2 "a"
        (.other 0)).Error (New "x" initHeap).2
      = some "the annotation a does not contain a valid value (***)" ∧
    (NewInvalidAnnotationContent FmtLib.stateful initHeap "a" (.other 0)).Error initHeap
      ≠ (NewInvalidAnnotationContent FmtLib.stateful (New "x" initHeap).2 "a"
          (.other 0)).Error (New "x" initHeap).2 := by
  have h1 : (NewInvalidAnnotationContent FmtLib.stateful initHeap "a" (.other 0)).Error
      initHeap = some "the annotation a does not contain a valid value (**)" := by
    rw [content_text]
    decide
  have h2 : (NewInvalidAnnotationContent FmtLib.stateful (New "x" initHeap).2 "a"
      (.other 0)).Error (New "x" initHeap).2
        = some "the annotation a does not contain a valid value (***)" := by
    rw [content_text]
    decide
  refine ⟨h1, h2, ?_⟩
  rw [h1, h2]
  decide

/-- C14: `IsRiskyAnnotationError` and `IsValidationError` are the same
function: on every error value, nil and every kind included, they return the
same result. -/
theorem isRiskyAnnotationError_eq_isValidationError :
    (∀ e : GoError, IsRiskyAnnotationError e = IsValidationError e) ∧
    IsRiskyAnnotationError = IsValidationError := by
  have hp : ∀ e : GoError, IsRiskyAnnotationError e = IsValidationError e := fun e => by
    cases e <;> rfl
  exact ⟨hp, funext hp⟩

/-- C15: the kinds are mutually exclusive: on every error value at most one of
`IsLocationDenied`, `IsMissingAnnotations`, `IsInvalidContent` and
`IsValidationError` is true. -/
theorem kinds_mutually_exclusive (e : GoError) :
    [IsLocationDenied e, IsMissingAnnotations e, IsInvalidContent e,
      IsValidationError e].count true ≤ 1 ∧
    ¬ (IsLocationDenied e = true ∧ IsMissingAnnotations e = true) ∧
    ¬ (IsLocationDenied e = true ∧ IsInvalidContent e = true) ∧
    ¬ (IsLocationDenied e = true ∧ IsValidationError e = true) ∧
    ¬ (IsMissingAnnotations e = true ∧ IsInvalidContent e = true) ∧
    ¬ (IsMissingAnnotations e = true ∧ IsValidationError e = true) ∧
    ¬ (IsInvalidContent e = true ∧ IsValidationError e = true) := by
  have hm : ∀ p : Nat, IsMissingAnnotations (.errorString p) = true ∨
      IsMissingAnnotations (.errorString p) = false := fun p => by
    cases IsMissingAnnotations (.errorString p) <;> simp
  cases e with
  | errorString p =>
    rcases hm p with hp | hp <;>
      simp [hp, IsLocationDenied, IsInvalidContent, IsValidationError]
  | _ =>
    simp [IsLocationDenied, IsInvalidContent, IsValidationError, IsMissingAnnotations,
      ErrMissingAnnotations, errors_New]

/-- C16: `Error()` is total on what the constructors return: every value
produced by `NewLocationDenied`, `NewValidationError` or `NewRiskyAnnotations`
is a struct whose `Reason` is not nil, and calling `Error()` on it yields a
string, in the heap of the call and in every later heap; whereas a
`LocationDeniedError`, `ValidationError` or `RiskyAnnotationError` with a nil
`Reason` has no message, the call being a panic. -/
theorem error_total_on_constructed (lib : FmtLib) (s : String) (h t : Heap) :
    ((∃ r, (NewLocationDenied lib s h).1 = .LocationDeniedError r ∧ r ≠ .nil) ∧
      ∃ m, (NewLocationDenied lib s h).1.Error ((NewLocationDenied lib s h).2 ++ t)
        = some m) ∧
    ((∃ r, (NewValidationError lib s h).1 = .ValidationError r ∧ r ≠ .nil) ∧
      ∃ m, (NewValidationError lib s h).1.Error ((NewValidationError lib s h).2 ++ t)
        = some m) ∧
    ((∃ r, (NewRiskyAnnotations lib s h).1 = .RiskyAnnotationError r ∧ r ≠ .nil) ∧
      ∃ m, (NewRiskyAnnotations lib s h).1.Error ((NewRiskyAnnotations lib s h).2 ++ t)
        = some m) ∧
    (GoError.LocationDeniedError .nil).Error h = none ∧
    (GoError.ValidationError .nil).Error h = none ∧
    (GoError.RiskyAnnotationError .nil).Error h = none := by
  have hp : GoError.errorString h.length ≠ .nil := fun he => GoError.noConfusion he
  refine ⟨⟨⟨_, ?_, hp⟩, _, locationDenied_text lib s h t⟩,
    ⟨⟨_, ?_, hp⟩, _, validationError_text lib s h t⟩,
    ⟨⟨_, ?_, hp⟩, _, riskyAnnotations_text lib s h t⟩, rfl, rfl, rfl⟩
  · rw [newLocationDenied_eq]
  · rw [newValidationError_eq]
  · rw [newRiskyAnnotations_eq]

/-- C17: the message of `NewInvalidAnnotationConfiguration` does not determine
its arguments: the distinct pairs `("x", "y does not contain a valid
configuration: z")` and `("x does not contain a valid configuration: y", "z")`
give the same message. -/
theorem configuration_message_not_injective (lib : FmtLib) (h : Heap) :
    (("x", "y does not contain a valid configuration: z") : String × String)
      ≠ ("x does not contain a valid configuration: y", "z") ∧
    (NewInvalidAnnotationConfiguration lib h "x"
        "y does not contain a valid configuration: z").Error h
      = (NewInvalidAnnotationConfiguration lib h
          "x does not contain a valid configuration: y" "z").Error h ∧
    (NewInvalidAnnotationConfiguration lib h "x"
        "y does not contain a valid configuration: z").Error h
      = some ("the annotation x does not contain a valid configuration: "
          ++ "y does not contain a valid configuration: z") ∧
    ∃ n1 r1 n2 r2 : String, (n1, r1) ≠ (n2, r2) ∧
      (NewInvalidAnnotationConfiguration lib h n1 r1).Error h
        = (NewInvalidAnnotationConfiguration lib h n2 r2).Error h := by
  have hd : (("x", "y does not contain a valid configuration: z") : String × String)
      ≠ ("x does not contain a valid configuration: y", "z") := by decide
  have h1 := configuration_text lib h h "x" "y does not contain a valid configuration: z"
  have h2 := configuration_text lib h h "x does not contain a valid configuration: y" "z"
  have he : (NewInvalidAnnotationConfiguration lib h "x"
        "y does not contain a valid configuration: z").Error h
      = (NewInvalidAnnotationConfiguration lib h
          "x does not contain a valid configuration: y" "z").Error h := by
    rw [h1, h2]
    decide
  exact ⟨hd, he, h1.trans (by decide), _, _, _, _, hd, he⟩

end IngressErrors
